import Mathlib

/-!
# Verification of the progress-service in-memory event queue

A shallow embedding of `EventQueueService` (the in-memory queue with
interval-driven batch draining, bounded retry, and shutdown draindown)
and of `EventsService.processEvent`, together with theorems settling the
specification claims about them.

External effects (MongoDB saves, Kafka publishes) are modelled by an
oracle that decides, per processing attempt, whether the store save
succeeds (and which id the store assigns) and whether the publish
succeeds.  Successful store writes and publishes are recorded as
effects so that persistence/publish ordering and duplication are
observable.
-/

set_option autoImplicit false

namespace ProgressService

/-- Decimal digit character, `digitChar d = '0' + d` for `d < 10`.
Models how JavaScript renders one digit of a number in a template string. -/
def digitChar (d : Nat) : Char := Char.ofNat (48 + d)

/-- Fuel-driven big-endian decimal rendering of a natural number (the fuel
only bounds the recursion depth; `n + 1` units always suffice).  Models the
decimal rendering JavaScript performs in `` `evt_${Date.now()}_${++this.eventCounter}` ``. -/
def toDecCore : Nat → Nat → List Char
  | 0, _ => []
  | fuel + 1, n =>
    if n < 10 then [digitChar n]
    else toDecCore fuel (n / 10) ++ [digitChar (n % 10)]

/-- Decimal string of a natural number, as JavaScript string interpolation
renders a nonnegative integer. -/
def natToDecimal (n : Nat) : String := ⟨toDecCore (n + 1) n⟩

/-- Opaque structured payload of an event (`eventData`).  Only the fields
inspected by `extractUserId` are distinguished; everything else is an
opaque blob carried through untouched. -/
structure EventData where
  /-- The direct `eventData.userId` field, when present.  JavaScript
  truthiness applies: an empty string counts as absent. -/
  userId : Option String
  /-- The nested `eventData.user.id` field, when present. -/
  userObjId : Option String
  /-- The rest of the payload, opaque to the queue. -/
  payload : String
  deriving DecidableEq, Repr

/-- An event record as handled by the queue: `eventType`, `eventData`,
optional free-form `metadata`, the `userId` merged in at enqueue time,
and an optional caller-supplied timestamp. -/
structure Event where
  eventType : String
  eventData : EventData
  metadata : Option String
  userId : Option String
  timestamp : Option Nat
  deriving DecidableEq, Repr

/-- A queued item: `{ id, event, timestamp, retryCount }` from
`EventQueueService`. -/
structure QueuedEvent where
  id : String
  event : Event
  timestamp : Nat
  retryCount : Nat
  deriving DecidableEq, Repr

/-- The mutable state of `EventQueueService`: the in-memory buffer, the
overlap guard, the interval-timer handle (modelled as a flag) and the
monotonic id counter. -/
structure QueueState where
  inMemoryQueue : List QueuedEvent
  isProcessing : Bool
  timerActive : Bool
  eventCounter : Nat
  deriving DecidableEq, Repr

/-- `PROCESSING_INTERVAL_MS = 100`. -/
def PROCESSING_INTERVAL_MS : Nat := 100

/-- `BATCH_SIZE = 10`. -/
def BATCH_SIZE : Nat := 10

/-- `MAX_RETRIES = 3`. -/
def MAX_RETRIES : Nat := 3

/-- The state at construction: empty buffer, not processing, no timer,
counter `0`. -/
def initialState : QueueState :=
  { inMemoryQueue := [], isProcessing := false, timerActive := false
    eventCounter := 0 }

/-- JavaScript `a || b` on an optional string: a present, non-empty string
is truthy and wins; `undefined` and `""` fall through to `b`. -/
def jsOrElse (a : Option String) (b : String) : String :=
  match a with
  | some s => if s = "" then b else s
  | none => b

/-- `extractUserId(eventData)`: `eventData?.userId || eventData?.user?.id || 'unknown'`. -/
def extractUserId (eventData : EventData) : String :=
  jsOrElse eventData.userId (jsOrElse eventData.userObjId "unknown")

/-- The queue id `` `evt_${now}_${counter}` `` generated by `enqueueEvent`. -/
def mkEventId (now counter : Nat) : String :=
  "evt_" ++ natToDecimal now ++ "_" ++ natToDecimal counter

/-- `enqueueEvent(event, userId)`, at instant `now` (milliseconds):
generates the id `` `evt_${Date.now()}_${++this.eventCounter}` ``, merges
the request-level `userId` into the event, appends a fresh item with
`retryCount = 0` to the back of the buffer, and returns the id. -/
def enqueueEvent (event : Event) (userId : String) (now : Nat)
    (st : QueueState) : QueueState × String :=
  let counter := st.eventCounter + 1
  let id := mkEventId now counter
  let queuedEvent : QueuedEvent :=
    { id := id
      event := { event with userId := some userId }
      timestamp := now
      retryCount := 0 }
  ({ st with
      inMemoryQueue := st.inMemoryQueue ++ [queuedEvent]
      eventCounter := counter },
   id)

/-- The document handed to `eventModel.save()` in step 1 of
`processSingleEvent`.  Note that `userId` is recomputed from the payload
via `extractUserId` — the request-level identity merged into
`event.userId` at enqueue time is not consulted. -/
structure EventDocument where
  eventType : String
  eventData : EventData
  metadata : Option String
  userId : String
  deriving DecidableEq, Repr

/-- The message published to Kafka in step 2 of `processSingleEvent`. -/
structure KafkaMessage where
  eventId : String
  eventType : String
  userId : String
  eventData : EventData
  metadata : Option String
  timestamp : Nat
  deriving DecidableEq, Repr

/-- Externally visible durable effects of one processing attempt. -/
inductive Effect where
  /-- A completed MongoDB save, with the store-assigned `_id`. -/
  | storeSave (mongoId : Nat) (doc : EventDocument)
  /-- A completed Kafka publish on a topic. -/
  | kafkaPublish (topic : String) (msg : KafkaMessage)
  deriving DecidableEq, Repr

/-- Environment outcome of one processing attempt: whether the store save
succeeds (and with which `_id`), whether the saved document reports a
`createdAt`, the current time (used when `createdAt` is absent), and
whether the Kafka publish succeeds. -/
structure Outcome where
  saveResult : Option Nat
  createdAt : Option Nat
  now : Nat
  publishOk : Bool
  deriving DecidableEq, Repr

/-- An environment oracle: the outcome of processing a given queued item
(the item carries its `retryCount`, so distinct attempts of one item can
receive distinct outcomes). -/
def Oracle : Type := QueuedEvent → Outcome

/-- Result of one `processSingleEvent` call: durable effects plus which
of the three exits was taken (success, re-queue for retry, terminal
drop).  Exactly one of the three options is `some`. -/
structure AttemptResult where
  effects : List Effect
  succeeded : Option QueuedEvent
  requeued : Option QueuedEvent
  dropped : Option QueuedEvent
  deriving DecidableEq, Repr

/-- The shared failure exit of `processSingleEvent`: if
`retryCount < MAX_RETRIES`, increment `retryCount` and re-queue the item,
otherwise drop it permanently. -/
def requeueOrDrop (queuedEvent : QueuedEvent) (effects : List Effect) :
    AttemptResult :=
  if queuedEvent.retryCount < MAX_RETRIES then
    { effects := effects
      succeeded := none
      requeued := some { queuedEvent with retryCount := queuedEvent.retryCount + 1 }
      dropped := none }
  else
    { effects := effects, succeeded := none, requeued := none
      dropped := some queuedEvent }

/-- The document built from a queued item in step 1 of `processSingleEvent`. -/
def documentOf (queuedEvent : QueuedEvent) : EventDocument :=
  { eventType := queuedEvent.event.eventType
    eventData := queuedEvent.event.eventData
    metadata := queuedEvent.event.metadata
    userId := extractUserId queuedEvent.event.eventData }

/-- The Kafka message built in step 2 of `processSingleEvent`:
`eventId` is the store-assigned `_id` rendered as a string, and
`timestamp` is `savedEvent.createdAt || new Date()`. -/
def kafkaMessageOf (queuedEvent : QueuedEvent) (mongoId : Nat)
    (outcome : Outcome) : KafkaMessage :=
  { eventId := natToDecimal mongoId
    eventType := queuedEvent.event.eventType
    userId := extractUserId queuedEvent.event.eventData
    eventData := queuedEvent.event.eventData
    metadata := queuedEvent.event.metadata
    timestamp :=
      match outcome.createdAt with
      | some t => t
      | none => outcome.now }

/-- `processSingleEvent(queuedEvent)`: save the document to MongoDB, then
publish to the Kafka topic `"events"`; on any failure fall into the
retry/drop logic.  A failed save leaves no durable effect; a failed
publish leaves the completed save in place (it is not rolled back). -/
def processSingleEvent (oracle : Oracle) (queuedEvent : QueuedEvent) :
    AttemptResult :=
  let outcome := oracle queuedEvent
  match outcome.saveResult with
  | none => requeueOrDrop queuedEvent []
  | some mongoId =>
    let saveEffect := Effect.storeSave mongoId (documentOf queuedEvent)
    if outcome.publishOk then
      { effects := [saveEffect,
          Effect.kafkaPublish "events" (kafkaMessageOf queuedEvent mongoId outcome)]
        succeeded := some queuedEvent
        requeued := none
        dropped := none }
    else
      requeueOrDrop queuedEvent [saveEffect]

/-- First phase of `processBatch`: set `isProcessing = true` and splice up
to `BATCH_SIZE` items off the front of the buffer.  Returns the updated
state and the extracted batch. -/
def beginBatch (st : QueueState) : QueueState × List QueuedEvent :=
  ({ st with
      isProcessing := true
      inMemoryQueue := st.inMemoryQueue.drop BATCH_SIZE },
   st.inMemoryQueue.take BATCH_SIZE)

/-- Second phase of `processBatch`: process every batch item (all attempts
settle), push each re-queued item to the back of the buffer, and reset
`isProcessing = false` in the `finally` block, regardless of outcome. -/
def settleBatch (oracle : Oracle) (st : QueueState)
    (batch : List QueuedEvent) : QueueState × List AttemptResult :=
  let results := batch.map (processSingleEvent oracle)
  ({ st with
      inMemoryQueue := st.inMemoryQueue ++ results.filterMap AttemptResult.requeued
      isProcessing := false },
   results)

/-- `processBatch()`: one full drain cycle. -/
def processBatch (oracle : Oracle) (st : QueueState) :
    QueueState × List AttemptResult :=
  let (st1, batch) := beginBatch st
  settleBatch oracle st1 batch

/-- One firing of the interval timer: start a drain cycle only if not
already processing and the buffer is non-empty. -/
def intervalTick (oracle : Oracle) (st : QueueState) :
    QueueState × List AttemptResult :=
  if st.isProcessing = false ∧ 0 < st.inMemoryQueue.length then
    processBatch oracle st
  else
    (st, [])

/-- `startProcessing()`: install the interval timer if absent. -/
def startProcessing (st : QueueState) : QueueState :=
  if st.timerActive then st else { st with timerActive := true }

/-- `stopProcessing()`: cancel the interval timer if present. -/
def stopProcessing (st : QueueState) : QueueState :=
  if st.timerActive then { st with timerActive := false } else st

/-- The shutdown draindown loop of `processRemainingEvents`, written with
explicit fuel (each iteration is one `processBatch` call; the loop in the
source runs `while (this.inMemoryQueue.length > 0)`).  With enough fuel —
`drainFuel` below always is — the loop stops exactly when the buffer is
empty. -/
def drainLoop (oracle : Oracle) : Nat → QueueState →
    QueueState × List AttemptResult
  | 0, st => (st, [])
  | fuel + 1, st =>
    if st.inMemoryQueue.isEmpty then (st, [])
    else
      let (st1, results) := processBatch oracle st
      let (st2, more) := drainLoop oracle fuel st1
      (st2, results ++ more)

/-- Retry budget remaining for one queued item, plus one for the pending
attempt. -/
def retryMeasure (queuedEvent : QueuedEvent) : Nat :=
  MAX_RETRIES + 1 - queuedEvent.retryCount

/-- Termination measure of the draindown loop: total remaining attempts
plus buffer length.  Strictly decreases at every drain cycle on a
non-empty buffer. -/
def drainFuel (queue : List QueuedEvent) : Nat :=
  (queue.map retryMeasure).sum + queue.length

/-- `processRemainingEvents()`: drain repeatedly until the buffer is
empty. -/
def processRemainingEvents (oracle : Oracle) (st : QueueState) :
    QueueState × List AttemptResult :=
  drainLoop oracle (drainFuel st.inMemoryQueue) st

/-- `onModuleDestroy()` (`stop()`): cancel the timer, then drain all
remaining events. -/
def onModuleDestroy (oracle : Oracle) (st : QueueState) :
    QueueState × List AttemptResult :=
  processRemainingEvents oracle (stopProcessing st)

/-- `onModuleInit()` (`start()`): install the drain timer. -/
def onModuleInit (st : QueueState) : QueueState :=
  startProcessing st

/-- `getQueueStats()` return value. -/
structure QueueStats where
  total : Nat
  isProcessing : Bool
  deriving DecidableEq, Repr

/-- `getQueueStats()`, modelled as a state transformer to make its absence
of side effects statable: it returns the state unchanged together with
the statistics record. -/
def getQueueStats (st : QueueState) : QueueState × QueueStats :=
  (st, { total := st.inMemoryQueue.length, isProcessing := st.isProcessing })

/-- Decimal digit character test (`'0'` through `'9'`). -/
def isDigitChar (c : Char) : Bool := 48 ≤ c.toNat && c.toNat ≤ 57

/-- Value of a big-endian list of decimal digit characters. -/
def decimalVal (cs : List Char) : Nat :=
  cs.foldl (fun acc c => 10 * acc + (c.toNat - 48)) 0

/-- Checks the tail of an event id against `<digits>_<digits>`: a
non-empty run of digits, an underscore, and a non-empty run of digits. -/
def digitsUnderscoreDigits (cs : List Char) : Bool :=
  let ds := cs.takeWhile isDigitChar
  match cs.dropWhile isDigitChar with
  | '_' :: rest => !ds.isEmpty && !rest.isEmpty && rest.all isDigitChar
  | _ => false

/-- Checks a string against the id format `evt_<digits>_<digits>`. -/
def matchesEventIdFormat (s : String) : Bool :=
  match s.data with
  | 'e' :: 'v' :: 't' :: '_' :: rest => digitsUnderscoreDigits rest
  | _ => false

/-- Runs a sequence of `enqueueEvent` calls (each input is the event, the
request-level user id, and the `Date.now()` instant of that call) and
collects the returned queue ids in order. -/
def runEnqueues (inputs : List (Event × String × Nat)) (st : QueueState) :
    QueueState × List String :=
  match inputs with
  | [] => (st, [])
  | (event, userId, now) :: rest =>
    let (st1, id) := enqueueEvent event userId now st
    let (st2, ids) := runEnqueues rest st1
    (st2, id :: ids)

/-- The receipt returned by `EventsService.processEvent`. -/
structure Receipt where
  queueId : String
  status : String
  message : String
  timestamp : Nat
  deriving DecidableEq, Repr

/-- The wrapping performed by `EventsService.processEvent` around the
result of `Queue.enqueue`: a successful enqueue (returning the queue id)
is wrapped into an accepted receipt stamped with the current time; a
thrown enqueue error is logged and re-thrown to the caller. -/
def processEventWith (enqueueResult : Except String (QueueState × String))
    (now : Nat) : Except String (QueueState × Receipt) :=
  match enqueueResult with
  | Except.ok (st, queueId) =>
    Except.ok (st,
      { queueId := queueId
        status := "accepted"
        message := "Event has been queued for processing"
        timestamp := now })
  | Except.error e => Except.error e

/-- `EventsService.processEvent(event)` on the non-throwing path: delegate
to `enqueueEvent` and wrap the returned id into a receipt. -/
def processEvent (event : Event) (userId : String) (enqueueNow now : Nat)
    (st : QueueState) : Except String (QueueState × Receipt) :=
  processEventWith (Except.ok (enqueueEvent event userId enqueueNow st)) now

/-- States reachable from the freshly constructed service by any
interleaving of module init, enqueues, timer ticks and shutdown. -/
inductive Reachable : QueueState → Prop
  | init : Reachable initialState
  | moduleInit {st : QueueState} : Reachable st → Reachable (onModuleInit st)
  | enqueue {st : QueueState} (event : Event) (userId : String) (now : Nat) :
      Reachable st → Reachable (enqueueEvent event userId now st).1
  | tick {st : QueueState} (oracle : Oracle) :
      Reachable st → Reachable (intervalTick oracle st).1
  | destroy {st : QueueState} (oracle : Oracle) :
      Reachable st → Reachable (onModuleDestroy oracle st).1

/-! ## Concrete fixtures used by witnesses and counterexamples -/

/-- A sample quiz-attempt payload with a direct user id. -/
def sampleEventData : EventData :=
  { userId := some "user123", userObjId := none, payload := "quiz789" }

/-- A sample event. -/
def sampleEvent : Event :=
  { eventType := "quiz-attempt", eventData := sampleEventData
    metadata := some "session123", userId := none, timestamp := some 1 }

/-- An event whose payload carries no user identification at all. -/
def eventNoUser : Event :=
  { eventType := "video-watch"
    eventData := { userId := none, userObjId := none, payload := "v1" }
    metadata := none, userId := none, timestamp := none }

/-- A sample queued item on its first attempt. -/
def sampleItem : QueuedEvent :=
  { id := "evt_1_1", event := sampleEvent, timestamp := 1, retryCount := 0 }

/-- An environment in which the store save fails. -/
def failOracle : Oracle :=
  fun _ => { saveResult := none, createdAt := none, now := 0, publishOk := false }

/-- An environment in which save and publish both succeed. -/
def okOracle : Oracle :=
  fun _ => { saveResult := some 7, createdAt := some 3, now := 9, publishOk := true }

/-- An environment in which the save succeeds but the publish fails. -/
def pubFailOracle : Oracle :=
  fun _ => { saveResult := some 7, createdAt := none, now := 9, publishOk := false }

/-- A state with a drain already in flight. -/
def stBusy : QueueState :=
  { inMemoryQueue := [sampleItem], isProcessing := true, timerActive := true
    eventCounter := 1 }

/-- A state with an empty buffer and no drain in flight. -/
def stEmpty : QueueState :=
  { inMemoryQueue := [], isProcessing := false, timerActive := true
    eventCounter := 1 }

/-- A quiescent state with one buffered item. -/
def stReady : QueueState :=
  { inMemoryQueue := [sampleItem], isProcessing := false, timerActive := true
    eventCounter := 1 }

/-! ## Decimal rendering: digits, non-emptiness, injectivity -/

theorem toNat_digitChar (d : Nat) (h : d < 10) : (digitChar d).toNat = 48 + d := by
  interval_cases d <;> decide

theorem isDigitChar_digitChar (d : Nat) (h : d < 10) :
    isDigitChar (digitChar d) = true := by
  interval_cases d <;> decide

theorem toDecCore_ne_nil (fuel n : Nat) (h : 0 < fuel) :
    toDecCore fuel n ≠ [] := by
  cases fuel with
  | zero => exact absurd h (by omega)
  | succ fuel =>
    simp only [toDecCore]
    split
    · simp
    · simp

theorem toDecCore_all_digits (fuel : Nat) :
    ∀ n, (toDecCore fuel n).all isDigitChar = true := by
  induction fuel with
  | zero => intro n; rfl
  | succ fuel ih =>
    intro n
    simp only [toDecCore]
    split
    · rename_i h
      simp [isDigitChar_digitChar n h]
    · rename_i h
      have h10 : n % 10 < 10 := Nat.mod_lt _ (by omega)
      simp [List.all_append, ih (n / 10), isDigitChar_digitChar (n % 10) h10]

theorem decimalVal_append_singleton (l : List Char) (c : Char) :
    decimalVal (l ++ [c]) = 10 * decimalVal l + (c.toNat - 48) := by
  simp [decimalVal, List.foldl_append]

theorem decimalVal_toDecCore (fuel : Nat) :
    ∀ n, n < 10 ^ fuel → decimalVal (toDecCore fuel n) = n := by
  induction fuel with
  | zero =>
    intro n hn
    have : n = 0 := by simpa using hn
    simp [this, toDecCore, decimalVal]
  | succ fuel ih =>
    intro n hn
    simp only [toDecCore]
    split
    · rename_i h
      simp [decimalVal, toNat_digitChar n h]
    · rename_i h
      have hdiv : n / 10 < 10 ^ fuel := by
        rw [Nat.div_lt_iff_lt_mul (by omega)]
        calc n < 10 ^ (fuel + 1) := hn
        _ = 10 ^ fuel * 10 := by ring
      have h10 : n % 10 < 10 := Nat.mod_lt _ (by omega)
      rw [decimalVal_append_singleton, ih (n / 10) hdiv,
        toNat_digitChar (n % 10) h10]
      omega

theorem data_natToDecimal (n : Nat) :
    (natToDecimal n).data = toDecCore (n + 1) n := rfl

theorem decimalVal_natToDecimal (n : Nat) :
    decimalVal (natToDecimal n).data = n := by
  rw [data_natToDecimal]
  refine decimalVal_toDecCore (n + 1) n ?_
  calc n < 10 ^ n := Nat.lt_pow_self (by omega) n
  _ ≤ 10 ^ (n + 1) := Nat.pow_le_pow_right (by omega) (Nat.le_succ n)

theorem natToDecimal_injective (m n : Nat)
    (h : natToDecimal m = natToDecimal n) : m = n := by
  have := congrArg (fun s => decimalVal s.data) h
  simpa [decimalVal_natToDecimal] using this

theorem data_natToDecimal_ne_nil (n : Nat) : (natToDecimal n).data ≠ [] := by
  rw [data_natToDecimal]
  exact toDecCore_ne_nil (n + 1) n (by omega)

theorem data_natToDecimal_all_digits (n : Nat) :
    (natToDecimal n).data.all isDigitChar = true := by
  rw [data_natToDecimal]
  exact toDecCore_all_digits (n + 1) n

theorem underscore_not_mem_natToDecimal (n : Nat) :
    '_' ∉ (natToDecimal n).data := by
  intro hmem
  have hall := data_natToDecimal_all_digits n
  rw [List.all_eq_true] at hall
  have := hall _ hmem
  simp [isDigitChar] at this

/-! ## Event id format and uniqueness -/

theorem takeWhile_append_cons (p : Char → Bool) (l1 : List Char) (x : Char)
    (l2 : List Char) (hall : l1.all p = true) (hx : p x = false) :
    (l1 ++ x :: l2).takeWhile p = l1 := by
  induction l1 with
  | nil => simp [List.takeWhile, hx]
  | cons c cs ih =>
    rw [List.all_cons, Bool.and_eq_true] at hall
    simp [List.takeWhile, hall.1, ih hall.2]

theorem dropWhile_append_cons (p : Char → Bool) (l1 : List Char) (x : Char)
    (l2 : List Char) (hall : l1.all p = true) (hx : p x = false) :
    (l1 ++ x :: l2).dropWhile p = x :: l2 := by
  induction l1 with
  | nil => simp [List.dropWhile, hx]
  | cons c cs ih =>
    rw [List.all_cons, Bool.and_eq_true] at hall
    simp [List.dropWhile, hall.1, ih hall.2]

theorem data_mkEventId (t c : Nat) :
    (mkEventId t c).data =
      'e' :: 'v' :: 't' :: '_' ::
        ((natToDecimal t).data ++ '_' :: (natToDecimal c).data) := by
  have h1 : ("evt_" : String).data = ['e', 'v', 't', '_'] := rfl
  have h2 : ("_" : String).data = ['_'] := rfl
  simp [mkEventId, String.data_append, h1, h2]

theorem digitsUnderscoreDigits_append (t c : Nat) :
    digitsUnderscoreDigits
      ((natToDecimal t).data ++ '_' :: (natToDecimal c).data) = true := by
  have hx : isDigitChar '_' = false := by decide
  rw [digitsUnderscoreDigits,
    takeWhile_append_cons isDigitChar _ _ _ (data_natToDecimal_all_digits t) hx,
    dropWhile_append_cons isDigitChar _ _ _ (data_natToDecimal_all_digits t) hx]
  simp [data_natToDecimal_ne_nil, data_natToDecimal_all_digits]

theorem matchesEventIdFormat_mkEventId (t c : Nat) :
    matchesEventIdFormat (mkEventId t c) = true := by
  rw [matchesEventIdFormat, data_mkEventId]
  exact digitsUnderscoreDigits_append t c

theorem append_cons_eq_of_not_mem (x : Char) :
    ∀ (a1 a2 b1 b2 : List Char), x ∉ a1 → x ∉ a2 →
      a1 ++ x :: b1 = a2 ++ x :: b2 → a1 = a2 ∧ b1 = b2 := by
  intro a1
  induction a1 with
  | nil =>
    intro a2 b1 b2 _ ha2 h
    cases a2 with
    | nil => simpa using h
    | cons y ys =>
      simp only [List.nil_append, List.cons_append, List.cons.injEq] at h
      exact absurd (h.1 ▸ List.mem_cons_self y ys) ha2
  | cons y ys ih =>
    intro a2 b1 b2 ha1 ha2 h
    cases a2 with
    | nil =>
      simp only [List.cons_append, List.nil_append, List.cons.injEq] at h
      exact absurd (h.1 ▸ List.mem_cons_self y ys) (h.1 ▸ ha1)
    | cons z zs =>
      simp only [List.cons_append, List.cons.injEq] at h
      have hy : x ∉ ys := fun hm => ha1 (List.mem_cons_of_mem y hm)
      have hz : x ∉ zs := fun hm => ha2 (List.mem_cons_of_mem z hm)
      obtain ⟨heq, hb⟩ := ih zs b1 b2 hy hz h.2
      exact ⟨by rw [h.1, heq], hb⟩

theorem mkEventId_counter_inj (t1 c1 t2 c2 : Nat)
    (h : mkEventId t1 c1 = mkEventId t2 c2) : c1 = c2 := by
  have hd := congrArg String.data h
  rw [data_mkEventId, data_mkEventId] at hd
  have hfull :
      (['e', 'v', 't', '_'] ++ (natToDecimal t1).data) ++
          '_' :: (natToDecimal c1).data =
        (['e', 'v', 't', '_'] ++ (natToDecimal t2).data) ++
          '_' :: (natToDecimal c2).data := by
    simpa [List.append_assoc] using hd
  have hrev := congrArg List.reverse hfull
  simp only [List.reverse_append, List.reverse_cons, List.append_assoc,
    List.singleton_append] at hrev
  have h1 : '_' ∉ (natToDecimal c1).data.reverse := by
    rw [List.mem_reverse]; exact underscore_not_mem_natToDecimal c1
  have h2 : '_' ∉ (natToDecimal c2).data.reverse := by
    rw [List.mem_reverse]; exact underscore_not_mem_natToDecimal c2
  obtain ⟨hc, -⟩ := append_cons_eq_of_not_mem '_' _ _ _ _ h1 h2 hrev
  have : (natToDecimal c1).data = (natToDecimal c2).data :=
    List.reverse_injective hc
  exact natToDecimal_injective c1 c2 (String.ext this)

theorem snd_enqueueEvent (event : Event) (userId : String) (now : Nat)
    (st : QueueState) :
    (enqueueEvent event userId now st).2 = mkEventId now (st.eventCounter + 1) :=
  rfl

theorem eventCounter_enqueueEvent (event : Event) (userId : String)
    (now : Nat) (st : QueueState) :
    (enqueueEvent event userId now st).1.eventCounter = st.eventCounter + 1 :=
  rfl

theorem runEnqueues_id_counter :
    ∀ (inputs : List (Event × String × Nat)) (st : QueueState) (id : String),
      id ∈ (runEnqueues inputs st).2 →
        ∃ t k, id = mkEventId t k ∧ st.eventCounter < k := by
  intro inputs
  induction inputs with
  | nil => intro st id h; simp [runEnqueues] at h
  | cons input rest ih =>
    intro st id h
    obtain ⟨event, userId, now⟩ := input
    simp only [runEnqueues] at h
    rcases List.mem_cons.mp h with heq | hmem
    · exact ⟨now, st.eventCounter + 1, heq, Nat.lt_succ_self _⟩
    · obtain ⟨t, k, hid, hk⟩ := ih (enqueueEvent event userId now st).1 id hmem
      rw [eventCounter_enqueueEvent] at hk
      exact ⟨t, k, hid, by omega⟩

/-- C5: every id returned by `enqueueEvent` matches the format
`evt_<digits>_<digits>`, and for any sequence of enqueues within one
process lifetime the returned ids are pairwise distinct, because the
counter embedded in the id is strictly increasing and never reset. -/
theorem c5_enqueue_ids_unique_and_formatted :
    ∀ (inputs : List (Event × String × Nat)) (st : QueueState),
      ((runEnqueues inputs st).2).Nodup ∧
      ∀ id ∈ (runEnqueues inputs st).2, matchesEventIdFormat id = true := by
  intro inputs
  induction inputs with
  | nil => intro st; simp [runEnqueues]
  | cons input rest ih =>
    intro st
    obtain ⟨event, userId, now⟩ := input
    simp only [runEnqueues]
    constructor
    · rw [List.nodup_cons]
      refine ⟨?_, (ih _).1⟩
      intro hmem
      obtain ⟨t, k, hid, hk⟩ :=
        runEnqueues_id_counter rest (enqueueEvent event userId now st).1 _ hmem
      rw [eventCounter_enqueueEvent] at hk
      rw [snd_enqueueEvent] at hid
      have := mkEventId_counter_inj now (st.eventCounter + 1) t k hid
      omega
    · intro id hid
      rcases List.mem_cons.mp hid with heq | hmem
      · rw [heq, snd_enqueueEvent]
        exact matchesEventIdFormat_mkEventId now (st.eventCounter + 1)
      · exact (ih _).2 id hmem

/-! ## Single-attempt lemmas -/

theorem requeued_eq_some_iff (oracle : Oracle) (q q' : QueuedEvent) :
    (processSingleEvent oracle q).requeued = some q' →
      q.retryCount < MAX_RETRIES ∧
      q' = { q with retryCount := q.retryCount + 1 } := by
  intro h
  rcases hsave : (oracle q).saveResult with - | mongoId
  · simp only [processSingleEvent, hsave, requeueOrDrop] at h
    by_cases hr : q.retryCount < MAX_RETRIES
    · rw [if_pos hr] at h
      simp only [Option.some.injEq] at h
      exact ⟨hr, h.symm⟩
    · rw [if_neg hr] at h
      simp at h
  · simp only [processSingleEvent, hsave, requeueOrDrop] at h
    by_cases hp : (oracle q).publishOk = true
    · rw [if_pos hp] at h
      simp at h
    · rw [if_neg hp] at h
      by_cases hr : q.retryCount < MAX_RETRIES
      · rw [if_pos hr] at h
        simp only [Option.some.injEq] at h
        exact ⟨hr, h.symm⟩
      · rw [if_neg hr] at h
        simp at h

theorem requeued_none_of_exhausted (oracle : Oracle) (q : QueuedEvent)
    (h : MAX_RETRIES ≤ q.retryCount) :
    (processSingleEvent oracle q).requeued = none := by
  rcases hsave : (oracle q).saveResult with - | mongoId
  · simp only [processSingleEvent, hsave, requeueOrDrop]
    rw [if_neg (by omega)]
  · simp only [processSingleEvent, hsave, requeueOrDrop]
    by_cases hp : (oracle q).publishOk = true
    · rw [if_pos hp]
    · rw [if_neg hp, if_neg (by omega)]

theorem dropped_of_exhausted_failure (oracle : Oracle) (q : QueuedEvent)
    (h : MAX_RETRIES ≤ q.retryCount)
    (hfail : (processSingleEvent oracle q).succeeded = none) :
    (processSingleEvent oracle q).dropped = some q := by
  rcases hsave : (oracle q).saveResult with - | mongoId
  · simp only [processSingleEvent, hsave, requeueOrDrop]
    rw [if_neg (by omega)]
  · simp only [processSingleEvent, hsave, requeueOrDrop] at hfail ⊢
    by_cases hp : (oracle q).publishOk = true
    · rw [if_pos hp] at hfail
      simp at hfail
    · rw [if_neg hp, if_neg (by omega)]

theorem attempt_trichotomy (oracle : Oracle) (q : QueuedEvent) :
    ((processSingleEvent oracle q).succeeded = some q ∧
        (processSingleEvent oracle q).requeued = none ∧
        (processSingleEvent oracle q).dropped = none) ∨
    ((processSingleEvent oracle q).succeeded = none ∧
        (processSingleEvent oracle q).requeued =
          some { q with retryCount := q.retryCount + 1 } ∧
        (processSingleEvent oracle q).dropped = none) ∨
    ((processSingleEvent oracle q).succeeded = none ∧
        (processSingleEvent oracle q).requeued = none ∧
        (processSingleEvent oracle q).dropped = some q) := by
  rcases hsave : (oracle q).saveResult with - | mongoId
  · simp only [processSingleEvent, hsave, requeueOrDrop]
    split_ifs
    · exact Or.inr (Or.inl ⟨rfl, rfl, rfl⟩)
    · exact Or.inr (Or.inr ⟨rfl, rfl, rfl⟩)
  · simp only [processSingleEvent, hsave, requeueOrDrop]
    split_ifs
    · exact Or.inl ⟨rfl, rfl, rfl⟩
    · exact Or.inr (Or.inl ⟨rfl, rfl, rfl⟩)
    · exact Or.inr (Or.inr ⟨rfl, rfl, rfl⟩)

theorem id_of_requeued (oracle : Oracle) (q q' : QueuedEvent)
    (h : (processSingleEvent oracle q).requeued = some q') : q'.id = q.id := by
  obtain ⟨-, hq⟩ := requeued_eq_some_iff oracle q q' h
  rw [hq]

/-! ## Batch-level projections -/

theorem processBatch_queue (oracle : Oracle) (st : QueueState) :
    (processBatch oracle st).1.inMemoryQueue =
      st.inMemoryQueue.drop BATCH_SIZE ++
        ((st.inMemoryQueue.take BATCH_SIZE).map
          (processSingleEvent oracle)).filterMap AttemptResult.requeued := rfl

theorem processBatch_results (oracle : Oracle) (st : QueueState) :
    (processBatch oracle st).2 =
      (st.inMemoryQueue.take BATCH_SIZE).map (processSingleEvent oracle) := rfl

theorem processBatch_isProcessing (oracle : Oracle) (st : QueueState) :
    (processBatch oracle st).1.isProcessing = false := rfl

theorem processBatch_timerActive (oracle : Oracle) (st : QueueState) :
    (processBatch oracle st).1.timerActive = st.timerActive := rfl

theorem processBatch_eventCounter (oracle : Oracle) (st : QueueState) :
    (processBatch oracle st).1.eventCounter = st.eventCounter := rfl

/-! ## Retry-count invariant and attempt bound (C1) -/

theorem inMemoryQueue_startProcessing (st : QueueState) :
    (startProcessing st).inMemoryQueue = st.inMemoryQueue := by
  unfold startProcessing; split <;> rfl

theorem inMemoryQueue_stopProcessing (st : QueueState) :
    (stopProcessing st).inMemoryQueue = st.inMemoryQueue := by
  unfold stopProcessing; split <;> rfl

theorem timerActive_stopProcessing (st : QueueState) :
    (stopProcessing st).timerActive = false := by
  unfold stopProcessing
  split
  · rfl
  · rename_i h
    simpa using h

theorem inMemoryQueue_enqueueEvent (event : Event) (userId : String)
    (now : Nat) (st : QueueState) :
    (enqueueEvent event userId now st).1.inMemoryQueue =
      st.inMemoryQueue ++
        [{ id := mkEventId now (st.eventCounter + 1)
           event := { event with userId := some userId }
           timestamp := now
           retryCount := 0 }] := rfl

theorem retry_bound_processBatch (oracle : Oracle) (st : QueueState)
    (hinv : ∀ q ∈ st.inMemoryQueue, q.retryCount ≤ MAX_RETRIES) :
    ∀ q ∈ (processBatch oracle st).1.inMemoryQueue,
      q.retryCount ≤ MAX_RETRIES := by
  intro q hq
  rw [processBatch_queue] at hq
  rcases List.mem_append.mp hq with hd | hr
  · exact hinv q (List.drop_subset _ _ hd)
  · rw [List.mem_filterMap] at hr
    obtain ⟨res, hres, hreq⟩ := hr
    rw [List.mem_map] at hres
    obtain ⟨x, hx, hfx⟩ := hres
    obtain ⟨hlt, hq'⟩ := requeued_eq_some_iff oracle x q (hfx ▸ hreq)
    rw [hq']
    simp only []
    omega

theorem retry_bound_drainLoop (oracle : Oracle) :
    ∀ (fuel : Nat) (st : QueueState),
      (∀ q ∈ st.inMemoryQueue, q.retryCount ≤ MAX_RETRIES) →
      ∀ q ∈ (drainLoop oracle fuel st).1.inMemoryQueue,
        q.retryCount ≤ MAX_RETRIES := by
  intro fuel
  induction fuel with
  | zero => intro st hinv; exact hinv
  | succ fuel ih =>
    intro st hinv
    by_cases hemp : st.inMemoryQueue.isEmpty
    · simp only [drainLoop, hemp, if_pos]
      exact hinv
    · simp only [drainLoop, hemp, Bool.false_eq_true, if_false]
      exact ih (processBatch oracle st).1 (retry_bound_processBatch oracle st hinv)

theorem retry_bound_reachable (st : QueueState) (h : Reachable st) :
    ∀ q ∈ st.inMemoryQueue, q.retryCount ≤ MAX_RETRIES := by
  induction h with
  | init => intro q hq; simp [initialState] at hq
  | moduleInit _ ih =>
    intro q hq
    rw [onModuleInit, inMemoryQueue_startProcessing] at hq
    exact ih q hq
  | enqueue event userId now _ ih =>
    intro q hq
    rw [inMemoryQueue_enqueueEvent] at hq
    rcases List.mem_append.mp hq with hold | hnew
    · exact ih q hold
    · rw [List.mem_singleton] at hnew
      rw [hnew]
      simp [MAX_RETRIES]
  | tick oracle _ ih =>
    intro q hq
    rw [intervalTick] at hq
    split at hq
    · exact retry_bound_processBatch _ _ ih q hq
    · exact ih q hq
  | destroy oracle _ ih =>
    intro q hq
    rw [onModuleDestroy, processRemainingEvents] at hq
    refine retry_bound_drainLoop oracle _ (stopProcessing _) ?_ q hq
    rw [inMemoryQueue_stopProcessing]
    exact ih

/-- C1: in every reachable state each buffered item has
`retryCount ≤ MAX_RETRIES`, so any processing attempt is at most attempt
number `MAX_RETRIES + 1` (4); a failed attempt re-queues the item with
`retryCount` incremented exactly when `retryCount < MAX_RETRIES`; and an
item whose budget is exhausted is never re-queued — on failure it is
terminally dropped, so it cannot reappear in the buffer. -/
theorem c1_attempts_bounded (st : QueueState) (h : Reachable st) :
    (∀ q ∈ st.inMemoryQueue, q.retryCount + 1 ≤ MAX_RETRIES + 1) ∧
    (∀ (oracle : Oracle) (q q' : QueuedEvent),
      (processSingleEvent oracle q).requeued = some q' →
        q.retryCount < MAX_RETRIES ∧ q'.retryCount = q.retryCount + 1) ∧
    (∀ (oracle : Oracle) (q : QueuedEvent), MAX_RETRIES ≤ q.retryCount →
      (processSingleEvent oracle q).requeued = none ∧
      ((processSingleEvent oracle q).succeeded = none →
        (processSingleEvent oracle q).dropped = some q)) := by
  refine ⟨?_, ?_, ?_⟩
  · intro q hq
    have := retry_bound_reachable st h q hq
    omega
  · intro oracle q q' hreq
    obtain ⟨hlt, hq'⟩ := requeued_eq_some_iff oracle q q' hreq
    exact ⟨hlt, by rw [hq']⟩
  · intro oracle q hex
    exact ⟨requeued_none_of_exhausted oracle q hex,
      dropped_of_exhausted_failure oracle q hex⟩

/-- Witness for C1 at the concrete reachable state obtained by enqueueing
one event into the fresh service. -/
theorem c1_attempts_bounded_witness :
    (∀ q ∈ (enqueueEvent
        { eventType := "quiz-attempt"
          eventData := { userId := some "user123", userObjId := none, payload := "p" }
          metadata := none, userId := none, timestamp := none }
        "user123" 17 initialState).1.inMemoryQueue,
      q.retryCount + 1 ≤ MAX_RETRIES + 1) ∧
    (∀ (oracle : Oracle) (q q' : QueuedEvent),
      (processSingleEvent oracle q).requeued = some q' →
        q.retryCount < MAX_RETRIES ∧ q'.retryCount = q.retryCount + 1) ∧
    (∀ (oracle : Oracle) (q : QueuedEvent), MAX_RETRIES ≤ q.retryCount →
      (processSingleEvent oracle q).requeued = none ∧
      ((processSingleEvent oracle q).succeeded = none →
        (processSingleEvent oracle q).dropped = some q)) :=
  c1_attempts_bounded _
    (Reachable.enqueue _ "user123" 17 Reachable.init)

/-! ## Shutdown draindown (C2): termination measure and coverage -/

theorem drainFuel_append (a b : List QueuedEvent) :
    drainFuel (a ++ b) = drainFuel a + drainFuel b := by
  simp only [drainFuel, List.map_append, List.sum_append, List.length_append]
  omega

theorem drainFuel_requeued_le (oracle : Oracle) (batch : List QueuedEvent) :
    drainFuel ((batch.map (processSingleEvent oracle)).filterMap
        AttemptResult.requeued) ≤
      (batch.map retryMeasure).sum := by
  induction batch with
  | nil => simp [drainFuel]
  | cons x xs ih =>
    simp only [List.map_cons, List.filterMap_cons, List.sum_cons]
    cases hreq : (processSingleEvent oracle x).requeued with
    | none =>
      calc drainFuel ((xs.map (processSingleEvent oracle)).filterMap
            AttemptResult.requeued) ≤ (xs.map retryMeasure).sum := ih
      _ ≤ retryMeasure x + (xs.map retryMeasure).sum := Nat.le_add_left _ _
    | some q' =>
      obtain ⟨hlt, hq'⟩ := requeued_eq_some_iff oracle x q' hreq
      have hm : retryMeasure q' + 1 = retryMeasure x := by
        rw [hq']
        simp only [retryMeasure]
        omega
      have hd : drainFuel (q' :: (xs.map (processSingleEvent oracle)).filterMap
            AttemptResult.requeued) =
          retryMeasure q' + 1 +
            drainFuel ((xs.map (processSingleEvent oracle)).filterMap
              AttemptResult.requeued) := by
        simp only [drainFuel, List.map_cons, List.sum_cons, List.length_cons]
        omega
      show drainFuel (q' :: (xs.map (processSingleEvent oracle)).filterMap
            AttemptResult.requeued) ≤
          retryMeasure x + (xs.map retryMeasure).sum
      omega

theorem drainFuel_processBatch_lt (oracle : Oracle) (st : QueueState)
    (h : st.inMemoryQueue ≠ []) :
    drainFuel (processBatch oracle st).1.inMemoryQueue <
      drainFuel st.inMemoryQueue := by
  rw [processBatch_queue, drainFuel_append]
  conv_rhs =>
    rw [show st.inMemoryQueue =
        st.inMemoryQueue.take BATCH_SIZE ++ st.inMemoryQueue.drop BATCH_SIZE
      from (List.take_append_drop _ _).symm]
  rw [drainFuel_append]
  have hb := drainFuel_requeued_le oracle (st.inMemoryQueue.take BATCH_SIZE)
  have hlen : 0 < (st.inMemoryQueue.take BATCH_SIZE).length := by
    rw [List.length_take]
    have hpos : 0 < st.inMemoryQueue.length := List.length_pos.mpr h
    simp only [BATCH_SIZE]
    omega
  have hfuel : drainFuel (st.inMemoryQueue.take BATCH_SIZE) =
      ((st.inMemoryQueue.take BATCH_SIZE).map retryMeasure).sum +
        (st.inMemoryQueue.take BATCH_SIZE).length := rfl
  omega

theorem drainLoop_zero (oracle : Oracle) (st : QueueState) :
    drainLoop oracle 0 st = (st, []) := rfl

theorem drainLoop_succ_empty (oracle : Oracle) (fuel : Nat) (st : QueueState)
    (h : st.inMemoryQueue.isEmpty = true) :
    drainLoop oracle (fuel + 1) st = (st, []) := by
  simp only [drainLoop, h, if_pos]

theorem drainLoop_succ_cons (oracle : Oracle) (fuel : Nat) (st : QueueState)
    (h : ¬st.inMemoryQueue.isEmpty = true) :
    drainLoop oracle (fuel + 1) st =
      ((drainLoop oracle fuel (processBatch oracle st).1).1,
        (processBatch oracle st).2 ++
          (drainLoop oracle fuel (processBatch oracle st).1).2) := by
  rw [drainLoop, if_neg h]

theorem timerActive_drainLoop (oracle : Oracle) :
    ∀ (fuel : Nat) (st : QueueState),
      (drainLoop oracle fuel st).1.timerActive = st.timerActive := by
  intro fuel
  induction fuel with
  | zero => intro st; rfl
  | succ fuel ih =>
    intro st
    by_cases hemp : st.inMemoryQueue.isEmpty = true
    · rw [drainLoop_succ_empty oracle fuel st hemp]
    · rw [drainLoop_succ_cons oracle fuel st hemp]
      simp only []
      rw [ih, processBatch_timerActive]

theorem succeeded_effects (oracle : Oracle) (q q' : QueuedEvent)
    (h : (processSingleEvent oracle q).succeeded = some q') :
    q' = q ∧ ∃ mongoId, (oracle q).saveResult = some mongoId ∧
      (processSingleEvent oracle q).effects =
        [Effect.storeSave mongoId (documentOf q),
          Effect.kafkaPublish "events" (kafkaMessageOf q mongoId (oracle q))] := by
  rcases hsave : (oracle q).saveResult with - | mongoId
  · simp only [processSingleEvent, hsave, requeueOrDrop] at h
    split_ifs at h
  · simp only [processSingleEvent, hsave, requeueOrDrop] at h ⊢
    by_cases hp : (oracle q).publishOk = true
    · rw [if_pos hp] at h ⊢
      simp only [Option.some.injEq] at h
      exact ⟨h.symm, mongoId, rfl, rfl⟩
    · rw [if_neg hp] at h
      split_ifs at h

theorem drainLoop_results_mem (oracle : Oracle) :
    ∀ (fuel : Nat) (st : QueueState) (r : AttemptResult),
      r ∈ (drainLoop oracle fuel st).2 →
        ∃ x, r = processSingleEvent oracle x := by
  intro fuel
  induction fuel with
  | zero => intro st r hr; simp [drainLoop_zero] at hr
  | succ fuel ih =>
    intro st r hr
    by_cases hemp : st.inMemoryQueue.isEmpty = true
    · rw [drainLoop_succ_empty oracle fuel st hemp] at hr
      simp at hr
    · rw [drainLoop_succ_cons oracle fuel st hemp] at hr
      rcases List.mem_append.mp hr with h1 | h2
      · rw [processBatch_results] at h1
        obtain ⟨x, -, hx⟩ := List.mem_map.mp h1
        exact ⟨x, hx.symm⟩
      · exact ih _ r h2

theorem drainLoop_drains (oracle : Oracle) :
    ∀ (fuel : Nat) (st : QueueState), drainFuel st.inMemoryQueue ≤ fuel →
      (drainLoop oracle fuel st).1.inMemoryQueue = [] ∧
      ∀ q ∈ st.inMemoryQueue, ∃ r ∈ (drainLoop oracle fuel st).2,
        (∃ q', r.succeeded = some q' ∧ q'.id = q.id) ∨
        (∃ q', r.dropped = some q' ∧ q'.id = q.id) := by
  intro fuel
  induction fuel with
  | zero =>
    intro st hfuel
    have hlen : st.inMemoryQueue.length = 0 := by
      have : st.inMemoryQueue.length ≤ drainFuel st.inMemoryQueue := by
        simp only [drainFuel]; omega
      omega
    have hnil : st.inMemoryQueue = [] := List.length_eq_zero.mp hlen
    rw [drainLoop_zero]
    exact ⟨hnil, by rw [hnil]; intro q hq; simp at hq⟩
  | succ fuel ih =>
    intro st hfuel
    by_cases hemp : st.inMemoryQueue.isEmpty = true
    · have hnil : st.inMemoryQueue = [] := by simpa using hemp
      rw [drainLoop_succ_empty oracle fuel st hemp]
      exact ⟨hnil, by rw [hnil]; intro q hq; simp at hq⟩
    · have hne : st.inMemoryQueue ≠ [] := by simpa using hemp
      have hdec := drainFuel_processBatch_lt oracle st hne
      have hle : drainFuel (processBatch oracle st).1.inMemoryQueue ≤ fuel := by
        omega
      obtain ⟨hempty, hcover⟩ := ih (processBatch oracle st).1 hle
      rw [drainLoop_succ_cons oracle fuel st hemp]
      refine ⟨hempty, ?_⟩
      intro q hq
      rw [show st.inMemoryQueue =
          st.inMemoryQueue.take BATCH_SIZE ++ st.inMemoryQueue.drop BATCH_SIZE
        from (List.take_append_drop _ _).symm] at hq
      rcases List.mem_append.mp hq with htake | hdrop
      · rcases attempt_trichotomy oracle q with hsucc | hreq | hdropd
        · refine ⟨processSingleEvent oracle q, ?_, Or.inl ⟨q, hsucc.1, rfl⟩⟩
          refine List.mem_append_left _ ?_
          rw [processBatch_results]
          exact List.mem_map_of_mem _ htake
        · have hq'' : { q with retryCount := q.retryCount + 1 } ∈
              (processBatch oracle st).1.inMemoryQueue := by
            rw [processBatch_queue]
            refine List.mem_append_right _ ?_
            rw [List.mem_filterMap]
            exact ⟨processSingleEvent oracle q,
              List.mem_map_of_mem _ htake, hreq.2.1⟩
          obtain ⟨r, hrmem, hr⟩ := hcover _ hq''
          exact ⟨r, List.mem_append_right _ hrmem, hr⟩
        · refine ⟨processSingleEvent oracle q, ?_, Or.inr ⟨q, hdropd.2.2, rfl⟩⟩
          refine List.mem_append_left _ ?_
          rw [processBatch_results]
          exact List.mem_map_of_mem _ htake
      · have hq1 : q ∈ (processBatch oracle st).1.inMemoryQueue := by
          rw [processBatch_queue]
          exact List.mem_append_left _ hdrop
        obtain ⟨r, hrmem, hr⟩ := hcover _ hq1
        exact ⟨r, List.mem_append_right _ hrmem, hr⟩

/-- C2: `stop()` (module destroy) cancels the drain timer and then drains
until the buffer is empty — the loop terminates, the final buffer is
empty, and every item that was in the buffer is settled: some attempt for
its id either succeeded (store save followed by Kafka publish, both
durable) or was terminally dropped. -/
theorem c2_clean_shutdown_drains (oracle : Oracle) (st : QueueState) :
    (onModuleDestroy oracle st).1.inMemoryQueue = [] ∧
    (onModuleDestroy oracle st).1.timerActive = false ∧
    (∀ q ∈ st.inMemoryQueue, ∃ r ∈ (onModuleDestroy oracle st).2,
      (∃ q', r.succeeded = some q' ∧ q'.id = q.id) ∨
      (∃ q', r.dropped = some q' ∧ q'.id = q.id)) ∧
    (∀ r ∈ (onModuleDestroy oracle st).2, ∀ q',
      r.succeeded = some q' →
        ∃ mongoId, r.effects =
          [Effect.storeSave mongoId (documentOf q'),
            Effect.kafkaPublish "events" (kafkaMessageOf q' mongoId (oracle q'))]) := by
  have hqueue : (stopProcessing st).inMemoryQueue = st.inMemoryQueue :=
    inMemoryQueue_stopProcessing st
  have hmain := drainLoop_drains oracle
    (drainFuel (stopProcessing st).inMemoryQueue) (stopProcessing st)
    (Nat.le_refl _)
  have hD : onModuleDestroy oracle st =
      drainLoop oracle (drainFuel (stopProcessing st).inMemoryQueue)
        (stopProcessing st) := rfl
  rw [hD]
  refine ⟨hmain.1, ?_, ?_, ?_⟩
  · rw [timerActive_drainLoop, timerActive_stopProcessing]
  · intro q hq
    exact hmain.2 q (by rw [hqueue]; exact hq)
  · intro r hr q' hsucc
    obtain ⟨x, hx⟩ := drainLoop_results_mem oracle _ _ r hr
    obtain ⟨hq'x, mongoId, -, heff⟩ :=
      succeeded_effects oracle x q' (hx ▸ hsucc)
    exact ⟨mongoId, by rw [hx, heff, hq'x]⟩

/-! ## Remaining claims -/

/-- C3: a drain cycle removes exactly the oldest `min(BATCH_SIZE, length)`
items from the front of the buffer (FIFO selection); the remaining items
keep their original relative order, and the failed non-exhausted batch
items are re-appended, incremented, to the back of the buffer. -/
theorem c3_fifo_batch_selection (oracle : Oracle) (st : QueueState) :
    st.inMemoryQueue =
      st.inMemoryQueue.take BATCH_SIZE ++ st.inMemoryQueue.drop BATCH_SIZE ∧
    (st.inMemoryQueue.take BATCH_SIZE).length =
      min BATCH_SIZE st.inMemoryQueue.length ∧
    (processBatch oracle st).1.inMemoryQueue =
      st.inMemoryQueue.drop BATCH_SIZE ++
        ((st.inMemoryQueue.take BATCH_SIZE).map
          (processSingleEvent oracle)).filterMap AttemptResult.requeued ∧
    (processBatch oracle st).2 =
      (st.inMemoryQueue.take BATCH_SIZE).map (processSingleEvent oracle) ∧
    (∀ q q', (processSingleEvent oracle q).requeued = some q' →
      q' = { q with retryCount := q.retryCount + 1 }) := by
  refine ⟨(List.take_append_drop _ _).symm, List.length_take _ _,
    processBatch_queue oracle st, processBatch_results oracle st, ?_⟩
  intro q q' h
  exact (requeued_eq_some_iff oracle q q' h).2

/-- C4: the interval tick starts a drain cycle only when no drain is in
flight and the buffer is non-empty (otherwise it is a no-op); the cycle
sets `isProcessing` at its start (`beginBatch`) and resets it to `false`
when it finishes (`settleBatch`), regardless of the attempts' outcomes,
so in this sequential model drain cycles never overlap. -/
theorem c4_no_overlapping_drains (oracle : Oracle) (st : QueueState) :
    (st.isProcessing = true → intervalTick oracle st = (st, [])) ∧
    (st.inMemoryQueue = [] → intervalTick oracle st = (st, [])) ∧
    (st.isProcessing = false → st.inMemoryQueue ≠ [] →
      intervalTick oracle st = processBatch oracle st) ∧
    (beginBatch st).1.isProcessing = true ∧
    (∀ (st1 : QueueState) (batch : List QueuedEvent),
      (settleBatch oracle st1 batch).1.isProcessing = false) ∧
    (processBatch oracle st).1.isProcessing = false := by
  refine ⟨?_, ?_, ?_, rfl, fun st1 batch => rfl,
    processBatch_isProcessing oracle st⟩
  · intro h
    rw [intervalTick, if_neg]
    intro hcond
    rw [h] at hcond
    exact absurd hcond.1 (by simp)
  · intro h
    rw [intervalTick, if_neg]
    intro hcond
    rw [h] at hcond
    simp at hcond
  · intro hidle hne
    rw [intervalTick, if_pos]
    exact ⟨hidle, List.length_pos.mpr hne⟩

/-- Witness for C4 at concrete states: busy state and empty buffer make
the tick a no-op, a quiescent non-empty state starts a cycle. -/
theorem c4_no_overlapping_drains_witness :
    intervalTick failOracle stBusy = (stBusy, []) ∧
    intervalTick failOracle stEmpty = (stEmpty, []) ∧
    intervalTick failOracle stReady = processBatch failOracle stReady :=
  ⟨(c4_no_overlapping_drains failOracle stBusy).1 rfl,
    (c4_no_overlapping_drains failOracle stEmpty).2.1 rfl,
    (c4_no_overlapping_drains failOracle stReady).2.2.1 rfl (by decide)⟩

/-- C7: a fully successful attempt persists the document to the store and
only then publishes to the Kafka topic `"events"` a message tagged with
the store-assigned id and the item's original metadata; the successful
item is neither re-queued nor dropped, so it leaves the queue
permanently. -/
theorem c7_persist_then_publish (oracle : Oracle) (q : QueuedEvent)
    (mongoId : Nat) (hsave : (oracle q).saveResult = some mongoId)
    (hpub : (oracle q).publishOk = true) :
    (processSingleEvent oracle q).effects =
      [Effect.storeSave mongoId (documentOf q),
        Effect.kafkaPublish "events" (kafkaMessageOf q mongoId (oracle q))] ∧
    (kafkaMessageOf q mongoId (oracle q)).eventId = natToDecimal mongoId ∧
    (kafkaMessageOf q mongoId (oracle q)).metadata = q.event.metadata ∧
    (kafkaMessageOf q mongoId (oracle q)).eventType = q.event.eventType ∧
    (processSingleEvent oracle q).requeued = none ∧
    (processSingleEvent oracle q).dropped = none := by
  simp only [processSingleEvent, hsave, requeueOrDrop]
  rw [if_pos hpub]
  exact ⟨rfl, rfl, rfl, rfl, rfl, rfl⟩

/-- Witness for C7 in the all-success environment. -/
theorem c7_persist_then_publish_witness :
    (processSingleEvent okOracle sampleItem).effects =
      [Effect.storeSave 7 (documentOf sampleItem),
        Effect.kafkaPublish "events"
          (kafkaMessageOf sampleItem 7 (okOracle sampleItem))] ∧
    (kafkaMessageOf sampleItem 7 (okOracle sampleItem)).eventId =
      natToDecimal 7 ∧
    (kafkaMessageOf sampleItem 7 (okOracle sampleItem)).metadata =
      sampleItem.event.metadata ∧
    (kafkaMessageOf sampleItem 7 (okOracle sampleItem)).eventType =
      sampleItem.event.eventType ∧
    (processSingleEvent okOracle sampleItem).requeued = none ∧
    (processSingleEvent okOracle sampleItem).dropped = none :=
  c7_persist_then_publish okOracle sampleItem 7 rfl rfl

/-- C8: `getQueueStats()` returns exactly the current buffer length as
`total` together with the `isProcessing` flag, and leaves the whole state
(buffer, flag, timer, counter) unchanged. -/
theorem c8_stats_pure (st : QueueState) :
    (getQueueStats st).1 = st ∧
    (getQueueStats st).2.total = st.inMemoryQueue.length ∧
    (getQueueStats st).2.isProcessing = st.isProcessing :=
  ⟨rfl, rfl, rfl⟩

/-- C9: `processEvent` returns synchronously a receipt whose `queueId` is
exactly the id returned by `enqueueEvent`, with status `"accepted"`, the
fixed message, and the current timestamp; a failed enqueue is re-thrown
unchanged instead of being converted into an accepted receipt. -/
theorem c9_receipt_wraps_enqueue (event : Event) (userId : String)
    (enqueueNow now : Nat) (st : QueueState) :
    processEvent event userId enqueueNow now st =
      Except.ok ((enqueueEvent event userId enqueueNow st).1,
        { queueId := (enqueueEvent event userId enqueueNow st).2
          status := "accepted"
          message := "Event has been queued for processing"
          timestamp := now }) ∧
    (∀ e : String,
      processEventWith (Except.error e) now = Except.error e) := by
  exact ⟨rfl, fun e => rfl⟩

/-- C10: when the store save succeeds but the publish fails, the completed
save is kept (not rolled back), the whole item is re-queued, the retried
item builds the identical document, and any later attempt whose save
succeeds writes that document to the store again — persistence is
at-least-once, not atomic with the publish. -/
theorem c10_duplicate_persistence (oracle : Oracle) (q : QueuedEvent)
    (mongoId : Nat) (hsave : (oracle q).saveResult = some mongoId)
    (hpub : (oracle q).publishOk = false)
    (hretry : q.retryCount < MAX_RETRIES) :
    (processSingleEvent oracle q).effects =
      [Effect.storeSave mongoId (documentOf q)] ∧
    (processSingleEvent oracle q).requeued =
      some { q with retryCount := q.retryCount + 1 } ∧
    documentOf { q with retryCount := q.retryCount + 1 } = documentOf q ∧
    (∀ mongoId2 : Nat,
      (oracle { q with retryCount := q.retryCount + 1 }).saveResult =
        some mongoId2 →
      Effect.storeSave mongoId2 (documentOf q) ∈
        (processSingleEvent oracle
          { q with retryCount := q.retryCount + 1 }).effects) := by
  refine ⟨?_, ?_, rfl, ?_⟩
  · simp only [processSingleEvent, hsave, requeueOrDrop]
    rw [if_neg (by simp [hpub]), if_pos hretry]
  · simp only [processSingleEvent, hsave, requeueOrDrop]
    rw [if_neg (by simp [hpub]), if_pos hretry]
  · intro mongoId2 hsave2
    simp only [processSingleEvent, hsave2, requeueOrDrop]
    by_cases hp2 : (oracle { q with retryCount := q.retryCount + 1 }).publishOk = true
    · rw [if_pos hp2]
      exact List.mem_cons_self _ _
    · rw [if_neg hp2]
      split_ifs <;> exact List.mem_cons_self _ _

/-- Witness for C10: save succeeds with id 7, publish fails, first
attempt. -/
theorem c10_duplicate_persistence_witness :
    (pubFailOracle sampleItem).saveResult = some 7 ∧
    (pubFailOracle sampleItem).publishOk = false ∧
    sampleItem.retryCount < MAX_RETRIES ∧
    ((processSingleEvent pubFailOracle sampleItem).effects =
        [Effect.storeSave 7 (documentOf sampleItem)] ∧
      (processSingleEvent pubFailOracle sampleItem).requeued =
        some { sampleItem with retryCount := sampleItem.retryCount + 1 } ∧
      documentOf { sampleItem with retryCount := sampleItem.retryCount + 1 } =
        documentOf sampleItem ∧
      (∀ mongoId2 : Nat,
        (pubFailOracle
            { sampleItem with
                retryCount := sampleItem.retryCount + 1 }).saveResult =
          some mongoId2 →
        Effect.storeSave mongoId2 (documentOf sampleItem) ∈
          (processSingleEvent pubFailOracle
            { sampleItem with
                retryCount := sampleItem.retryCount + 1 }).effects)) :=
  ⟨rfl, rfl, by decide,
    c10_duplicate_persistence pubFailOracle sampleItem 7 rfl rfl (by decide)⟩

/-- C6 counterexample: an event whose payload has no user fields, enqueued
with the request-level identity `"alice"`, is persisted with userId
`"unknown"`: the request-level identity supplied at enqueue is not
consulted when resolving the persisted document's userId, contradicting
the claimed precedence. -/
theorem c6_counterexample :
    (enqueueEvent eventNoUser "alice" 5 initialState).1.inMemoryQueue =
      [{ id := mkEventId 5 1
         event := { eventNoUser with userId := some "alice" }
         timestamp := 5
         retryCount := 0 }] ∧
    ({ eventNoUser with userId := some "alice" } : Event).userId =
      some "alice" ∧
    (documentOf
        { id := mkEventId 5 1
          event := { eventNoUser with userId := some "alice" }
          timestamp := 5
          retryCount := 0 }).userId = "unknown" ∧
    ("unknown" : String) ≠ "alice" :=
  ⟨rfl, rfl, rfl, by decide⟩

/-- C6 (amended): the persisted `userId` is resolved as
`eventData.userId` if present and non-empty, else `eventData.user.id` if
present and non-empty, else the sentinel `"unknown"`; the request-level
identity merged into the queued record at enqueue is not consulted; and
the result is always a non-empty string. -/
theorem c6_amended_userid_resolution :
    (∀ (d : EventData) (s : String), d.userId = some s → s ≠ "" →
      extractUserId d = s) ∧
    (∀ (d : EventData) (t : String),
      (d.userId = none ∨ d.userId = some "") → d.userObjId = some t →
        t ≠ "" → extractUserId d = t) ∧
    (∀ d : EventData, (d.userId = none ∨ d.userId = some "") →
      (d.userObjId = none ∨ d.userObjId = some "") →
        extractUserId d = "unknown") ∧
    (∀ d : EventData, extractUserId d ≠ "") ∧
    (∀ q : QueuedEvent,
      (documentOf q).userId = extractUserId q.event.eventData) ∧
    (∀ (q : QueuedEvent) (u : Option String),
      documentOf { q with event := { q.event with userId := u } } =
        documentOf q) := by
  refine ⟨?_, ?_, ?_, ?_, fun q => rfl, fun q u => rfl⟩
  · intro d s hs hne
    simp only [extractUserId, hs, jsOrElse]
    rw [if_neg hne]
  · intro d t hd ht hne
    rcases hd with hd | hd
    · simp only [extractUserId, hd, ht, jsOrElse]
      rw [if_neg hne]
    · simp only [extractUserId, hd, ht, jsOrElse]
      simp [hne]
  · intro d hd ho
    rcases hd with hd | hd
    · rcases ho with ho | ho
      · simp only [extractUserId, hd, ho, jsOrElse]
      · simp only [extractUserId, hd, ho, jsOrElse]
        simp
    · rcases ho with ho | ho
      · simp only [extractUserId, hd, ho, jsOrElse]
        simp
      · simp only [extractUserId, hd, ho, jsOrElse]
        simp
  · intro d
    rcases hu : d.userId with - | s
    · rcases ho : d.userObjId with - | t
      · simp only [extractUserId, hu, ho, jsOrElse]
        decide
      · simp only [extractUserId, hu, ho, jsOrElse]
        by_cases hne : t = ""
        · rw [if_pos hne]; decide
        · rw [if_neg hne]; exact hne
    · simp only [extractUserId, hu, jsOrElse]
      by_cases hne : s = ""
      · rw [if_pos hne]
        rcases ho : d.userObjId with - | t
        · simp only [ho, jsOrElse]
          decide
        · simp only [ho, jsOrElse]
          by_cases hne2 : t = ""
          · rw [if_pos hne2]; decide
          · rw [if_neg hne2]; exact hne2
      · rw [if_neg hne]; exact hne

/-- Witness for C6 (amended) at the three precedence levels. -/
theorem c6_amended_userid_resolution_witness :
    extractUserId
        { userId := some "direct", userObjId := some "nested", payload := "" } =
      "direct" ∧
    extractUserId
        { userId := none, userObjId := some "nested", payload := "" } =
      "nested" ∧
    extractUserId { userId := some "", userObjId := none, payload := "" } =
      "unknown" :=
  ⟨c6_amended_userid_resolution.1 _ "direct" rfl (by decide),
    c6_amended_userid_resolution.2.1 _ "nested" (Or.inl rfl) rfl (by decide),
    c6_amended_userid_resolution.2.2.1 _ (Or.inr rfl) (Or.inl rfl)⟩

end ProgressService
